import Mathlib

/-!
# Verification of the staticmap-osm-generator core pipeline

Shallow embedding of the core components of the `staticmap-osm-generator`
repository (result-cache key derivation, tile memory cache, retrying tile
fetcher, rate limiter, and the compositor's coordinate/marker logic), with
theorems checking the natural-language specification's claims against the
code.

Modelling conventions:
* JavaScript strings are modelled as `List Char`; template-literal
  concatenation is list append.
* JavaScript numbers appearing as cache keys or serialized hash fields are
  modelled by their serialized character lists (JS number-to-string is
  injective and never emits `'|'` or `'/'`).
* Wall-clock times (`Date.now()`) and durations are `Nat` milliseconds,
  threaded explicitly.
* Tile bytes (`Buffer`) are opaque and modelled as `Nat` identifiers.
* Real-valued Web-Mercator arithmetic is modelled over `ℝ`.
-/

namespace StaticMap

/-! ## Result cache key (src/core/hash.ts, current revision)

`generateHash` SHA-256-digests a serialized input string.  SHA-256 is a
fixed deterministic function of its input, so determinism and the
collision analysis of the claims reduce to the serialized pre-image
built at `hash.ts` line 15:
`` input = `${zoom}|${lat}|${lon}|${marker}|${anchor}|s${scale}` ``.
-/

/-- The serialized hash pre-image over already-serialized fields:
`zoom|lat|lon|marker|anchor|s{scale}` (hash.ts line 15, the template
literal with `'|'` separators and the `s`-prefixed scale field). -/
def hashInput (zoom lat lon marker anchor scale : List Char) : List Char :=
  zoom ++ '|' :: (lat ++ '|' :: (lon ++ '|' :: (marker ++ '|' :: (anchor ++ '|' :: 's' :: scale))))

/-- JS `x || ''` defaulting of the optional marker/anchor name arguments
(hash.ts lines 13-14): a missing name becomes the empty string. -/
def jsOrEmpty : Option (List Char) → List Char
  | none => []
  | some s => s

/-- Serialized input of `generateHash` including the `marker = markerName || ''`
and `anchor = anchorName || ''` defaulting (hash.ts lines 13-15). -/
def generateHashInput (zoom lat lon : List Char)
    (markerName anchorName : Option (List Char)) (scale : List Char) : List Char :=
  hashInput zoom lat lon (jsOrEmpty markerName) (jsOrEmpty anchorName) scale

/-- Unambiguity of a single `'|'` separator: if neither prefix contains the
separator, splitting at the first `'|'` is unique. -/
theorem sep_split {x₁ x₂ r₁ r₂ : List Char}
    (h₁ : '|' ∉ x₁) (h₂ : '|' ∉ x₂)
    (h : x₁ ++ '|' :: r₁ = x₂ ++ '|' :: r₂) : x₁ = x₂ ∧ r₁ = r₂ := by
  induction x₁ generalizing x₂ with
  | nil =>
    cases x₂ with
    | nil => simpa using h
    | cons c cs =>
      simp only [List.nil_append, List.cons_append, List.cons.injEq] at h
      exact absurd (h.1 ▸ List.mem_cons_self c cs) h₂
  | cons c cs ih =>
    cases x₂ with
    | nil =>
      simp only [List.nil_append, List.cons_append, List.cons.injEq] at h
      exact absurd (h.1.symm ▸ List.mem_cons_self c cs) h₁
    | cons d ds =>
      simp only [List.cons_append, List.cons.injEq] at h
      have hc : '|' ∉ cs := fun hm => h₁ (List.mem_cons_of_mem c hm)
      have hd : '|' ∉ ds := fun hm => h₂ (List.mem_cons_of_mem d hm)
      obtain ⟨he, hr⟩ := ih hc hd h.2
      exact ⟨by rw [h.1, he], hr⟩

/-- Field-separated serialization is injective on pipe-free fields. -/
theorem hashInput_injective
    {z₁ lat₁ lon₁ m₁ a₁ s₁ z₂ lat₂ lon₂ m₂ a₂ s₂ : List Char}
    (hz₁ : '|' ∉ z₁) (hlat₁ : '|' ∉ lat₁) (hlon₁ : '|' ∉ lon₁)
    (hm₁ : '|' ∉ m₁) (ha₁ : '|' ∉ a₁)
    (hz₂ : '|' ∉ z₂) (hlat₂ : '|' ∉ lat₂) (hlon₂ : '|' ∉ lon₂)
    (hm₂ : '|' ∉ m₂) (ha₂ : '|' ∉ a₂)
    (h : hashInput z₁ lat₁ lon₁ m₁ a₁ s₁ = hashInput z₂ lat₂ lon₂ m₂ a₂ s₂) :
    z₁ = z₂ ∧ lat₁ = lat₂ ∧ lon₁ = lon₂ ∧ m₁ = m₂ ∧ a₁ = a₂ ∧ s₁ = s₂ := by
  unfold hashInput at h
  obtain ⟨ez, h⟩ := sep_split hz₁ hz₂ h
  obtain ⟨elat, h⟩ := sep_split hlat₁ hlat₂ h
  obtain ⟨elon, h⟩ := sep_split hlon₁ hlon₂ h
  obtain ⟨em, h⟩ := sep_split hm₁ hm₂ h
  obtain ⟨ea, h⟩ := sep_split ha₁ ha₂ h
  exact ⟨ez, elat, elon, em, ea, by simpa using h⟩

/-! ## Tile memory cache (src/core/tileCache.ts)

The JS `Map` is modelled as an association list in insertion order,
oldest entry first — `Map.keys().next().value` is the head, `Map.set`
on a fresh key appends at the end, `Map.delete` removes the entry. -/

/-- One cached tile: opaque buffer id plus the `Date.now()` stored with it. -/
structure CacheEntry where
  buffer : Nat
  timestamp : Nat
  deriving DecidableEq, Repr

/-- Model of `getCacheKey` (tileCache.ts): `` `${zoom}/${x}/${y}` ``. -/
def getCacheKey (zoom x y : Int) : List Char :=
  (toString zoom).data ++ '/' :: ((toString x).data ++ '/' :: (toString y).data)

/-- First-match association-list lookup (JS `Map.get`). -/
def lookupKey (key : List Char) : List (List Char × CacheEntry) → Option CacheEntry
  | [] => none
  | (k, e) :: rest => if k = key then some e else lookupKey key rest

/-- Remove the entry with the given key (JS `Map.delete`).  A `Map` holds
each key at most once, so on every state reachable from an empty `Map`
removing all occurrences coincides with removing the unique one. -/
def eraseKey (key : List Char) : List (List Char × CacheEntry) → List (List Char × CacheEntry)
  | [] => []
  | (k, e) :: rest => if k = key then eraseKey key rest else (k, e) :: eraseKey key rest

/-- The `TileCache` class state: configured capacity, TTL in milliseconds
(`ttlMinutes * 60 * 1000`), and the `Map` contents in insertion order. -/
structure TileCache where
  maxSize : Nat
  ttl : Nat
  entries : List (List Char × CacheEntry)
  deriving DecidableEq, Repr

/-- Model of `TileCache.get` (tileCache.ts lines 41-56): look the key up; on a miss
return `null`; if `Date.now() - entry.timestamp > this.ttl` delete the
entry and return `null`; otherwise return the stored buffer.  Returns the
JS result together with the post-call cache state. -/
def TileCache.get (c : TileCache) (now : Nat) (zoom x y : Int) :
    Option Nat × TileCache :=
  let key := getCacheKey zoom x y
  match lookupKey key c.entries with
  | none => (none, c)
  | some entry =>
    if c.ttl < now - entry.timestamp then
      (none, { c with entries := eraseKey key c.entries })
    else
      (some entry.buffer, c)

/-- Model of `TileCache.set` (tileCache.ts lines 61-81): if the cache is full and the
key is new, delete the first (oldest-inserted) `Map` key; then delete the
key if present; then insert `(key, {buffer, timestamp: Date.now()})` at the
end of the `Map`'s insertion order.  (The JS `if (firstKey)` guard only
rules out the `undefined` of an empty `Map`: real keys contain `'/'` and
are never the falsy empty string.) -/
def TileCache.set (c : TileCache) (now : Nat) (zoom x y : Int) (buffer : Nat) :
    TileCache :=
  let key := getCacheKey zoom x y
  let afterEvict :=
    if c.maxSize ≤ c.entries.length ∧ lookupKey key c.entries = none then
      match c.entries with
      | [] => []
      | _ :: rest => rest
    else c.entries
  let afterDelete :=
    if (lookupKey key afterEvict).isSome then eraseKey key afterEvict else afterEvict
  { c with entries := afterDelete ++ [(key, ⟨buffer, now⟩)] }

/-- Model of `TileCache.clear` (tileCache.ts lines 86-88). -/
def TileCache.clear (c : TileCache) : TileCache :=
  { c with entries := [] }

/-- One externally-invokable cache operation, with its wall-clock instant. -/
inductive CacheOp
  | set (now : Nat) (zoom x y : Int) (buffer : Nat)
  | get (now : Nat) (zoom x y : Int)
  | clear
  deriving DecidableEq, Repr

/-- Apply one operation to the cache (the result of a `get` is discarded). -/
def TileCache.apply (c : TileCache) : CacheOp → TileCache
  | .set now zoom x y buffer => c.set now zoom x y buffer
  | .get now zoom x y => (c.get now zoom x y).2
  | .clear => c.clear

/-- Run a sequence of operations from the freshly constructed cache
(`new TileCache(maxSize, ttlMinutes)` starts with an empty `Map`). -/
def TileCache.run (maxSize ttl : Nat) (ops : List CacheOp) : TileCache :=
  ops.foldl TileCache.apply ⟨maxSize, ttl, []⟩

theorem length_eraseKey_le (key : List Char) :
    ∀ l : List (List Char × CacheEntry), (eraseKey key l).length ≤ l.length := by
  intro l
  induction l with
  | nil => simp [eraseKey]
  | cons p rest ih =>
    obtain ⟨k, e⟩ := p
    by_cases h : k = key <;> simp [eraseKey, h] <;> omega

theorem length_eraseKey_of_mem {key : List Char}
    {l : List (List Char × CacheEntry)} (h : (lookupKey key l).isSome) :
    (eraseKey key l).length + 1 ≤ l.length := by
  induction l with
  | nil => simp [lookupKey] at h
  | cons p rest ih =>
    obtain ⟨k, e⟩ := p
    by_cases hk : k = key
    · have := length_eraseKey_le key rest
      simp only [eraseKey, if_pos hk, List.length_cons]
      omega
    · simp only [lookupKey, if_neg hk] at h
      have := ih h
      simp only [eraseKey, if_neg hk, List.length_cons]
      omega

theorem lookupKey_eraseKey_self (key : List Char) :
    ∀ l : List (List Char × CacheEntry),
      lookupKey key (eraseKey key l) = none := by
  intro l
  induction l with
  | nil => rfl
  | cons p rest ih =>
    obtain ⟨k, e⟩ := p
    by_cases hk : k = key
    · simp [eraseKey, hk, ih]
    · simp [eraseKey, lookupKey, hk, ih]

theorem lookupKey_eraseKey_ne {key k : List Char} (hne : k ≠ key) :
    ∀ l : List (List Char × CacheEntry),
      lookupKey k (eraseKey key l) = lookupKey k l := by
  intro l
  induction l with
  | nil => rfl
  | cons p rest ih =>
    obtain ⟨k', e⟩ := p
    by_cases h' : k' = key
    · subst h'
      simp [eraseKey, lookupKey, Ne.symm hne, ih]
    · simp [eraseKey, lookupKey, h', ih]

theorem lookupKey_append_single_ne {key k : List Char} (hne : k ≠ key)
    (e : CacheEntry) : ∀ l : List (List Char × CacheEntry),
      lookupKey k (l ++ [(key, e)]) = lookupKey k l := by
  intro l
  induction l with
  | nil => simp [lookupKey, Ne.symm hne]
  | cons p rest ih =>
    obtain ⟨k', e'⟩ := p
    by_cases h' : k' = k <;> simp [lookupKey, h', ih]

theorem lookupKey_none_tail {key : List Char} {p : List Char × CacheEntry}
    {rest : List (List Char × CacheEntry)}
    (h : lookupKey key (p :: rest) = none) : lookupKey key rest = none := by
  obtain ⟨k, e⟩ := p
  by_cases hk : k = key <;> simp [lookupKey, hk] at h <;> simp [h]

/-! ## Retrying fetcher (src/core/tileFetcher.ts, `fetchWithRetry`)

The outcome of each network attempt is an environment parameter
`outcome : Nat → Except FetchError Nat` (attempt index ↦ thrown error or
fetched buffer id).  The embedding records the observable trace: the final
result, the number of attempts performed, and the list of backoff sleeps
in order. -/

/-- The errors one attempt can end in.  In the source, a non-2xx response
throws `` Error(`HTTP ${res.status}: ${url}`) `` — note that lines 258-264
throw the *same* error for 4xx and for other statuses; the 4xx branch
differs in nothing but the comment above it.  A timeout surfaces as an
`AbortError`, any transport failure as some other `Error`. -/
inductive FetchError
  | http (status : Nat)
  | abortTimeout
  | transport
  deriving DecidableEq, Repr

/-- Observable trace of one `fetchWithRetry` call: the settled promise
(`Except.error none` is the final `Failed to fetch tile after …` fallback
thrown when the loop never ran), the number of fetch attempts performed,
and the `setTimeout` backoff sleeps in milliseconds, in order. -/
instance : DecidableEq (Except (Option FetchError) Nat) := fun a b =>
  match a, b with
  | Except.ok x, Except.ok y => decidable_of_iff (x = y) (by simp)
  | Except.error x, Except.error y => decidable_of_iff (x = y) (by simp)
  | Except.ok _, Except.error _ => isFalse (fun hc => Except.noConfusion hc)
  | Except.error _, Except.ok _ => isFalse (fun hc => Except.noConfusion hc)

structure FetchTrace where
  result : Except (Option FetchError) Nat
  attempts : Nat
  sleeps : List Nat
  deriving DecidableEq, Repr

/-- The `for (let attempt = 0; attempt < maxRetries; attempt++)` loop of
`fetchWithRetry` (tileFetcher.ts lines 246-286), with `fuel` the remaining
iterations (`fuel = maxRetries - attempt` at every call).  On success the
buffer is returned; on any caught error the loop records it as `lastError`
and — whenever `attempt < maxRetries - 1` — sleeps
`baseDelay * 2 ** attempt` before the next iteration.  Every caught error
takes this same path: the catch block at lines 267-285 treats `AbortError`
and 4xx `HTTP` errors exactly like any other failure, except for the log
text. -/
def fetchLoop (outcome : Nat → Except FetchError Nat) (maxRetries baseDelay : Nat) :
    Nat → Nat → Option FetchError → FetchTrace
  | 0, attempt, lastError => ⟨Except.error lastError, attempt, []⟩
  | fuel + 1, attempt, lastError =>
    match outcome attempt with
    | Except.ok buffer => ⟨Except.ok buffer, attempt + 1, []⟩
    | Except.error e =>
      if attempt < maxRetries - 1 then
        let rest := fetchLoop outcome maxRetries baseDelay fuel (attempt + 1) (some e)
        ⟨rest.result, rest.attempts, baseDelay * 2 ^ attempt :: rest.sleeps⟩
      else
        fetchLoop outcome maxRetries baseDelay fuel (attempt + 1) (some e)

/-- Entry point `fetchWithRetry(url, maxRetries = 3, baseDelay = 1000)`. -/
def fetchWithRetry (outcome : Nat → Except FetchError Nat)
    (maxRetries baseDelay : Nat) : FetchTrace :=
  fetchLoop outcome maxRetries baseDelay maxRetries 0 none

/-! ## Rate limiter (src/core/tileFetcher.ts, `RateLimiter`)

The limiter's awaits partition each task's execution into atomic
synchronous segments.  A task is in one of six phases; a scheduler action
runs one segment (or lets wall-clock time pass).  The model is *coarser*
than the JS event loop — e.g. the segment from the concurrency check
through a successful dispatch (`waitForSlot` lines 188-205 falling through
both `if`s, plus `activeRequests++` at line 179) is taken as one atomic
step even though the engine inserts microtask boundaries inside it — so
every trace of this model is realizable by the source. -/

/-- Phase of one `execute` call. -/
inductive TaskPhase
  | notStarted
  /-- Pushed onto `this.queue` inside `waitForSlot`, awaiting its resolver. -/
  | queued
  /-- Resolver called by `processQueue`; about to run the spacing check. -/
  | resumed
  /-- Inside the `setTimeout(minDelay - timeSinceLastRequest)` sleep. -/
  | sleeping (wake : Nat)
  /-- Dispatched: `lastRequestTime` updated, `activeRequests` incremented,
  `fn()` running. -/
  | inFlight
  | done
  deriving DecidableEq, Repr

/-- The shared limiter state plus per-task phases and the trace of dispatch
timestamps. -/
structure LimiterState where
  maxConcurrent : Nat
  minDelay : Nat
  clock : Nat
  lastRequestTime : Nat
  active : Nat
  queue : List Nat
  phases : List TaskPhase
  dispatches : List Nat
  deriving DecidableEq, Repr

/-- Phase of task `i` (out-of-range ids read as `done`, i.e. unusable). -/
def LimiterState.phase (s : LimiterState) (i : Nat) : TaskPhase :=
  s.phases.getD i .done

def LimiterState.setPhase (s : LimiterState) (i : Nat) (p : TaskPhase) :
    LimiterState :=
  { s with phases := s.phases.set i p }

/-- Dispatch task `i`: the segment `this.lastRequestTime = Date.now()`
(line 204) followed by `this.activeRequests++` (line 179) and the start of
`fn()`. -/
def LimiterState.dispatch (s : LimiterState) (i : Nat) : LimiterState :=
  { s.setPhase i .inFlight with
    lastRequestTime := s.clock
    active := s.active + 1
    dispatches := s.dispatches ++ [s.clock] }

/-- The spacing check of `waitForSlot` (lines 196-204): if less than
`minDelay` has passed since the last dispatch, sleep out the remainder;
otherwise dispatch at once. -/
def LimiterState.spacingCheck (s : LimiterState) (i : Nat) : LimiterState :=
  if s.clock - s.lastRequestTime < s.minDelay then
    s.setPhase i (.sleeping (s.clock + (s.minDelay - (s.clock - s.lastRequestTime))))
  else
    s.dispatch i

/-- Model of `processQueue` (lines 207-212): if a task is queued and a slot is free,
shift the queue and resolve the head task's promise. -/
def LimiterState.processQueue (s : LimiterState) : LimiterState :=
  match s.queue with
  | [] => s
  | i :: rest =>
    if s.active < s.maxConcurrent then
      { s.setPhase i .resumed with queue := rest }
    else s

/-- Scheduler actions: start a task's `execute`, wake a sleeping task whose
timer expired, resume a task released from the queue, finish a task's
`fn()`, or let time pass. -/
inductive LAction
  | start (i : Nat)
  | wake (i : Nat)
  | resume (i : Nat)
  | finish (i : Nat)
  | advance (t : Nat)
  deriving DecidableEq, Repr

/-- One scheduler step; `none` when the action's guard does not hold, so a
trace that runs to `some` consists only of legal steps. -/
def lstep (s : LimiterState) : LAction → Option LimiterState
  | .start i =>
    if s.phase i = .notStarted then
      -- `waitForSlot` line 190: the concurrency check.
      if s.maxConcurrent ≤ s.active then
        some { s.setPhase i .queued with queue := s.queue ++ [i] }
      else
        some (s.spacingCheck i)
    else none
  | .wake i =>
    match s.phase i with
    | .sleeping wake =>
      -- The timer resumes the task directly at line 204: no re-check of
      -- either the concurrency cap or the spacing.
      if wake ≤ s.clock then some (s.dispatch i) else none
    | _ => none
  | .resume i =>
    if s.phase i = .resumed then some (s.spacingCheck i) else none
  | .finish i =>
    if s.phase i = .inFlight then
      some (LimiterState.processQueue
        { s.setPhase i .done with active := s.active - 1 })
    else none
  | .advance t => some { s with clock := s.clock + t }

/-- Run a list of scheduler actions, failing if any guard fails. -/
def lrun (s : LimiterState) : List LAction → Option LimiterState
  | [] => some s
  | a :: rest => (lstep s a).bind (fun s' => lrun s' rest)

/-- Initial state of `new RateLimiter(2, 2)` — `maxConcurrent = 2`,
`minDelay = 1000 / 2 = 500` — with three tasks not yet started and the
clock at an arbitrary epoch instant (`lastRequestTime` initialized to 0,
line 166). -/
def limInit : LimiterState :=
  ⟨2, 500, 1000000, 0, 0, [], [.notStarted, .notStarted, .notStarted], []⟩

/-- The schedule exhibiting the races: task 0 dispatches immediately;
tasks 1 and 2 both pass the concurrency check while only task 0 is active
and both enter the spacing sleep; the timers expire and both dispatch. -/
def limTrace : List LAction :=
  [.start 0, .start 1, .start 2, .advance 500, .wake 1, .wake 2]

/-! ## Coordinate transform (src/core/tile.ts, `latLonToTileXY`)

IEEE doubles are modelled by real numbers; `Math.floor` is `Int.floor`. -/

structure LatLonToTileResult where
  xtile : Int
  ytile : Int
  xtileFloat : Real
  ytileFloat : Real
  xPx : Real
  yPx : Real

/-- Model of `latLonToTileXY` (tile.ts lines 54-74): the Web-Mercator slippy-map
projection with pixel offsets the fractional remainder scaled by
`tileSize`. -/
noncomputable def latLonToTileXY (lat lon : Real) (z : Nat) (tileSize : Real) :
    LatLonToTileResult :=
  let n : Real := 2 ^ z
  let xtileFloat := ((lon + 180) / 360) * n
  let latRad := lat * Real.pi / 180
  let ytileFloat :=
    ((1 - Real.log (Real.tan latRad + 1 / Real.cos latRad) / Real.pi) / 2) * n
  let xtile := ⌊xtileFloat⌋
  let ytile := ⌊ytileFloat⌋
  { xtile := xtile
    ytile := ytile
    xtileFloat := xtileFloat
    ytileFloat := ytileFloat
    xPx := (xtileFloat - xtile) * tileSize
    yPx := (ytileFloat - ytile) * tileSize }

/-! ## Compositor tile selection (src/core/tile.ts, `generateSingleTileMap`
lines 85-108) -/

/-- JS `%` on integers is the truncated remainder, `Int.tmod`.  The
compositor's horizontal wrap is `((tileX % n) + n) % n` (line 107). -/
def jsWrap (a n : Int) : Int :=
  (a.tmod n + n).tmod n

/-- The world-pixel x-coordinate of the canvas's top-left corner
(lines 86-89). -/
noncomputable def topLeftX (lat lon : Real) (z : Nat) (tileSize : Real) : Real :=
  (latLonToTileXY lat lon z tileSize).xtileFloat * tileSize - tileSize / 2

noncomputable def topLeftY (lat lon : Real) (z : Nat) (tileSize : Real) : Real :=
  (latLonToTileXY lat lon z tileSize).ytileFloat * tileSize - tileSize / 2

/-- Horizontal index of the candidate tile in column `col ∈ {0, 1}`
(lines 91, 105): `tileX0 + col` with `tileX0 = ⌊topLeftX / tileSize⌋`. -/
noncomputable def candidateTileX (lat lon : Real) (z : Nat) (tileSize : Real)
    (col : Nat) : Int :=
  ⌊topLeftX lat lon z tileSize / tileSize⌋ + col

noncomputable def candidateTileY (lat lon : Real) (z : Nat) (tileSize : Real)
    (row : Nat) : Int :=
  ⌊topLeftY lat lon z tileSize / tileSize⌋ + row

/-- Model of `wrappedX` (line 107): horizontal wrap modulo `n = 2 ** zoom`. -/
noncomputable def wrappedX (lat lon : Real) (z : Nat) (tileSize : Real)
    (col : Nat) : Int :=
  jsWrap (candidateTileX lat lon z tileSize col) (2 ^ z)

/-- Model of `clampedY` (line 108): `Math.min(Math.max(tileY, 0), n - 1)`. -/
noncomputable def clampedY (lat lon : Real) (z : Nat) (tileSize : Real)
    (row : Nat) : Int :=
  min (max (candidateTileY lat lon z tileSize row) 0) (2 ^ z - 1)

/-! ## Marker resolution and fallback (src/core/tile.ts lines 132-201) -/

/-- One entry of the configured marker catalog (`config.markers`). -/
structure MarkerDef where
  name : List Char
  file : List Char
  fit : List Char
  deriving DecidableEq, Repr

/-- One entry of the configured anchor catalog (`config.anchors`):
normalized anchor coordinates. -/
structure AnchorDef where
  name : List Char
  x : Rat
  y : Rat
  deriving DecidableEq, Repr

/-- Drawing commands the marker stage emits onto the canvas. -/
inductive DrawOp
  /-- JS `ctx.drawImage(img, 0, 0, iw, ih, dx, dy, drawW, drawH)` (line 167). -/
  | drawImage (dx dy : Rat) (drawW drawH : Int)
  /-- JS `ctx.arc` + `ctx.fill` (lines 180-183). -/
  | fillCircle (cx cy r : Rat)
  /-- JS `ctx.arc` + `ctx.stroke` (lines 186-190). -/
  | strokeCircle (cx cy r : Rat)
  /-- The two centered cross strokes (lines 193-200), arms spanning
  `±r` around `(cx, cy)`. -/
  | strokeCross (cx cy r : Rat)
  deriving DecidableEq, Repr

/-- Marker lookup `markerName ? markers.find((m) => m.name === markerName) : undefined`
(lines 141-143); the empty string is falsy in JS. -/
def selectedMarker (markerName : Option (List Char)) (markers : List MarkerDef) :
    Option MarkerDef :=
  match markerName with
  | none => none
  | some nm => if nm = [] then none else markers.find? (fun m => m.name == nm)

def selectedAnchor (anchorName : Option (List Char)) (anchors : List AnchorDef) :
    Option AnchorDef :=
  match anchorName with
  | none => none
  | some nm => if nm = [] then none else anchors.find? (fun a => a.name == nm)

/-- JS `Math.round` rounds half away from zero toward `+∞` for positive
arguments; on rationals this is Mathlib's `round`. -/
def jsRound (q : Rat) : Int := round q

/-- The image-marker drawing geometry (lines 150-167) once the image
loaded with dimensions `(w, h)`: fit into `TARGET_SIZE = 32` preserving
aspect ratio under `contain`/`cover`, then place so the anchor lands on
the canvas center. -/
def imageMarkerOp (m : MarkerDef) (a : AnchorDef) (w h : Rat)
    (centerX centerY : Rat) : DrawOp :=
  let iw := if w = 0 then 1 else w        -- `img.width || 1`
  let ih := if h = 0 then 1 else h        -- `img.height || 1`
  let target : Rat := 32
  let scaleToFit :=
    if m.fit = "cover".data then max (target / iw) (target / ih)
    else min (target / iw) (target / ih)
  let drawW := max 1 (jsRound (iw * scaleToFit))
  let drawH := max 1 (jsRound (ih * scaleToFit))
  DrawOp.drawImage (centerX - a.x * drawW) (centerY - a.y * drawH) drawW drawH

/-- The vector fallback block (lines 175-201): filled circle, border
stroke, centered cross, all at the canvas center. -/
def vectorMarkerOps (centerX centerY radius : Rat) : List DrawOp :=
  [DrawOp.fillCircle centerX centerY radius,
   DrawOp.strokeCircle centerX centerY radius,
   DrawOp.strokeCross centerX centerY radius]

/-- The marker stage of `generateSingleTileMap` (lines 132-201).
`loadResult m` is the outcome of `await loadMarkerImage(m.file, 32)`:
`none` when loading/rasterization throws (the `catch` at line 169),
otherwise the loaded image's dimensions.  The stage draws the image marker
exactly when a marker and an anchor are both resolved and the image loads;
in every other case it draws the vector fallback at the canvas center
`(tileSize / 2, tileSize / 2)`. -/
def markerStage (markerName anchorName : Option (List Char))
    (markers : List MarkerDef) (anchors : List AnchorDef)
    (loadResult : MarkerDef → Option (Rat × Rat))
    (tileSize radius : Rat) : List DrawOp :=
  let centerX := tileSize / 2
  let centerY := tileSize / 2
  match selectedMarker markerName markers, selectedAnchor anchorName anchors with
  | some m, some a =>
    match loadResult m with
    | some (w, h) => [imageMarkerOp m a w h centerX centerY]
    | none => vectorMarkerOps centerX centerY radius
  | _, _ => vectorMarkerOps centerX centerY radius

/-- The tail of `generateSingleTileMap` after the tile fetches: when every
tile fetch resolved (`tilesOk`), the function always reaches
`canvas.toBuffer` and returns an encoded image whose marker layer is
`markerStage …`; when some tile fetch rejected, `Promise.all` rejects and
the whole composition fails.  Marker problems never make the result
`none`. -/
def composeResult (tilesOk : Bool) (markerName anchorName : Option (List Char))
    (markers : List MarkerDef) (anchors : List AnchorDef)
    (loadResult : MarkerDef → Option (Rat × Rat))
    (tileSize radius : Rat) : Option (List DrawOp) :=
  if tilesOk then
    some (markerStage markerName anchorName markers anchors loadResult tileSize radius)
  else none

/-! # Theorems for the claims -/

/-- Claim C1 (counterexample): the claim asserts `generateHash` is injective
over distinct `(zoom, lat, lon, markerName, anchorName, scale)` tuples
because the serialized input has an unambiguous separator between every
pair of adjacent fields.  But the `'|'` separator is not escaped inside
the marker/anchor name fields: the distinct tuples
`(5, 1, 2, "a", "b|c", 1)` and `(5, 1, 2, "a|b", "c", 1)` serialize to the
same input string `5|1|2|a|b|c|s1`, hence hash identically. -/
theorem c1_counterexample :
    generateHashInput "5".data "1".data "2".data (some "a".data)
        (some "b|c".data) "1".data =
      generateHashInput "5".data "1".data "2".data (some "a|b".data)
        (some "c".data) "1".data ∧
    (some "a".data, some "b|c".data) ≠ (some "a|b".data, some "c".data) := by
  decide

/-- Claim C1 (amended): `generateHash` is deterministic, and its serialized
input is injective over distinct parameter tuples provided the
marker/anchor names (after the `|| ''` defaulting, which identifies a
missing name with the empty string) contain no `'|'` character; the
numeric fields' JS serializations never contain `'|'`. -/
theorem c1_generateHash_deterministic_unambiguous :
    (∀ zoom lat lon markerName anchorName scale,
        generateHashInput zoom lat lon markerName anchorName scale =
          generateHashInput zoom lat lon markerName anchorName scale) ∧
    (∀ z₁ lat₁ lon₁ m₁ a₁ s₁ z₂ lat₂ lon₂ m₂ a₂ s₂,
        '|' ∉ z₁ → '|' ∉ lat₁ → '|' ∉ lon₁ →
        '|' ∉ jsOrEmpty m₁ → '|' ∉ jsOrEmpty a₁ →
        '|' ∉ z₂ → '|' ∉ lat₂ → '|' ∉ lon₂ →
        '|' ∉ jsOrEmpty m₂ → '|' ∉ jsOrEmpty a₂ →
        generateHashInput z₁ lat₁ lon₁ m₁ a₁ s₁ =
          generateHashInput z₂ lat₂ lon₂ m₂ a₂ s₂ →
        z₁ = z₂ ∧ lat₁ = lat₂ ∧ lon₁ = lon₂ ∧
        jsOrEmpty m₁ = jsOrEmpty m₂ ∧ jsOrEmpty a₁ = jsOrEmpty a₂ ∧ s₁ = s₂) := by
  refine ⟨fun _ _ _ _ _ _ => rfl, ?_⟩
  intro z₁ lat₁ lon₁ m₁ a₁ s₁ z₂ lat₂ lon₂ m₂ a₂ s₂
  intro hz₁ hlat₁ hlon₁ hm₁ ha₁ hz₂ hlat₂ hlon₂ hm₂ ha₂ h
  exact hashInput_injective hz₁ hlat₁ hlon₁ hm₁ ha₁ hz₂ hlat₂ hlon₂ hm₂ ha₂ h

/-- Witness for C1 at the spec's test point
`(5, -34.6037, -58.3816, "pin", "center", 1)`. -/
theorem c1_witness :
    ('|' ∉ "5".data ∧ '|' ∉ "-34.6037".data ∧ '|' ∉ "-58.3816".data ∧
      '|' ∉ jsOrEmpty (some "pin".data) ∧ '|' ∉ jsOrEmpty (some "center".data)) ∧
    ("5".data = "5".data ∧ "-34.6037".data = "-34.6037".data ∧
      "-58.3816".data = "-58.3816".data ∧
      jsOrEmpty (some "pin".data) = jsOrEmpty (some "pin".data) ∧
      jsOrEmpty (some "center".data) = jsOrEmpty (some "center".data) ∧
      "1".data = "1".data) :=
  ⟨by decide,
    c1_generateHash_deterministic_unambiguous.2 "5".data "-34.6037".data
      "-58.3816".data (some "pin".data) (some "center".data) "1".data
      "5".data "-34.6037".data "-58.3816".data (some "pin".data)
      (some "center".data) "1".data
      (by decide) (by decide) (by decide) (by decide) (by decide)
      (by decide) (by decide) (by decide) (by decide) (by decide) rfl⟩

/-- Claim C2 (code bug): a URL whose every attempt returns HTTP 404 does
*not* make exactly one attempt.  Despite the comment
`// Don't retry on 4xx errors (client errors)` (tileFetcher.ts line 259),
the 4xx branch throws the very error the surrounding `catch` treats as
retryable, so with the defaults (`maxRetries = 3`, `baseDelay = 1000`) the
fetch performs 3 attempts and sleeps 1000 ms and 2000 ms in between before
failing with the 404 error. -/
theorem c2_http404_is_retried :
    fetchWithRetry (fun _ => Except.error (FetchError.http 404)) 3 1000 =
      ⟨Except.error (some (FetchError.http 404)), 3, [1000, 2000]⟩ := by
  rfl

theorem fetchLoop_zero (outcome : Nat → Except FetchError Nat)
    (maxRetries baseDelay attempt : Nat) (lastError : Option FetchError) :
    fetchLoop outcome maxRetries baseDelay 0 attempt lastError =
      ⟨Except.error lastError, attempt, []⟩ := rfl

theorem fetchLoop_succ (outcome : Nat → Except FetchError Nat)
    (maxRetries baseDelay fuel attempt : Nat) (lastError : Option FetchError) :
    fetchLoop outcome maxRetries baseDelay (fuel + 1) attempt lastError =
      match outcome attempt with
      | Except.ok buffer => ⟨Except.ok buffer, attempt + 1, []⟩
      | Except.error e =>
        if attempt < maxRetries - 1 then
          let rest := fetchLoop outcome maxRetries baseDelay fuel (attempt + 1) (some e)
          ⟨rest.result, rest.attempts, baseDelay * 2 ^ attempt :: rest.sleeps⟩
        else
          fetchLoop outcome maxRetries baseDelay fuel (attempt + 1) (some e) := rfl

/-- Helper for C4: the retry loop under an all-failing outcome. -/
theorem fetchLoop_allFail (outcome : Nat → Except FetchError Nat)
    (maxRetries baseDelay : Nat) (e : Nat → FetchError)
    (hfail : ∀ i, outcome i = Except.error (e i)) :
    ∀ fuel attempt lastError, attempt + fuel = maxRetries → 1 ≤ fuel →
      fetchLoop outcome maxRetries baseDelay fuel attempt lastError =
        ⟨Except.error (some (e (maxRetries - 1))), maxRetries,
          (List.range' attempt (fuel - 1)).map (fun i => baseDelay * 2 ^ i)⟩ := by
  intro fuel
  induction fuel with
  | zero => omega
  | succ f ih =>
    intro attempt lastError htot _
    rw [fetchLoop_succ, hfail attempt]
    cases f with
    | zero =>
      have hlt : ¬ attempt < maxRetries - 1 := by omega
      have ha : attempt = maxRetries - 1 := by omega
      subst ha
      have hm : maxRetries - 1 + 1 = maxRetries := by omega
      simp [if_neg hlt, fetchLoop_zero, hm]
    | succ f' =>
      have hlt : attempt < maxRetries - 1 := by omega
      have hrec := ih (attempt + 1) (some (e attempt)) (by omega) (by omega)
      simp only [if_pos hlt, hrec]
      simp [List.range'_succ]

/-- Claim C4 (amended): for a URL whose every attempt fails with a retryable
error, `fetchWithRetry` makes exactly `maxRetries` total attempts, sleeps
`baseDelay * 2^attempt` after each failed non-final attempt — i.e.
`maxRetries - 1` sleeps, with the defaults 1 s and 2 s — and then fails
with the last observed error. -/
theorem c4_retry_exhaustion (outcome : Nat → Except FetchError Nat)
    (maxRetries baseDelay : Nat) (e : Nat → FetchError)
    (hfail : ∀ i, outcome i = Except.error (e i)) (h1 : 1 ≤ maxRetries) :
    fetchWithRetry outcome maxRetries baseDelay =
      ⟨Except.error (some (e (maxRetries - 1))), maxRetries,
        (List.range (maxRetries - 1)).map (fun i => baseDelay * 2 ^ i)⟩ := by
  unfold fetchWithRetry
  rw [fetchLoop_allFail outcome maxRetries baseDelay e hfail maxRetries 0 none
    (by omega) h1]
  rw [List.range_eq_range']

/-- Witness for C4 at the defaults (`maxRetries = 3`, `baseDelay = 1000`)
with every attempt a transport error. -/
theorem c4_witness :
    (1 ≤ 3) ∧
    fetchWithRetry (fun _ => Except.error FetchError.transport) 3 1000 =
      ⟨Except.error (some FetchError.transport), 3,
        (List.range 2).map (fun i => 1000 * 2 ^ i)⟩ :=
  ⟨by decide,
    c4_retry_exhaustion (fun _ => Except.error FetchError.transport) 3 1000
      (fun _ => FetchError.transport) (fun _ => rfl) (by decide)⟩

/-- Claim C4 (counterexample): with the default `maxRetries = 3` and
`baseDelay = 1000` the inter-attempt delays are 1000 ms and 2000 ms only —
there are `maxRetries - 1 = 2` sleeps, never a third 4000 ms sleep as the
claim's "1s, 2s, 4s" asserts. -/
theorem c4_counterexample :
    (fetchWithRetry (fun _ => Except.error FetchError.transport) 3 1000).sleeps
        = [1000, 2000] ∧
    (fetchWithRetry (fun _ => Except.error FetchError.transport) 3 1000).sleeps
        ≠ [1000, 2000, 4000] := by
  decide

/-- Claim C3 (counterexample): with `maxSize = 2`, insert keys `1/0/0` and
`1/1/0`, read `1/0/0` via `get` (a fresh hit), then insert the new key
`1/2/0`.  The eviction removes `1/0/0` — the entry that was just read —
while the never-reaccessed older entry `1/1/0` survives, because `get`
never refreshes an entry's position in the `Map`'s insertion order. -/
theorem c3_counterexample :
    (((TileCache.run 2 3600000
        [CacheOp.set 0 1 0 0 10, CacheOp.set 1 1 1 0 11]).get 2 1 0 0).1
      = some 10) ∧
    lookupKey (getCacheKey 1 0 0)
      ((((TileCache.run 2 3600000
          [CacheOp.set 0 1 0 0 10, CacheOp.set 1 1 1 0 11]).get 2 1 0 0).2.set
            3 1 2 0 12).entries) = none ∧
    lookupKey (getCacheKey 1 1 0)
      ((((TileCache.run 2 3600000
          [CacheOp.set 0 1 0 0 10, CacheOp.set 1 1 1 0 11]).get 2 1 0 0).2.set
            3 1 2 0 12).entries) = some ⟨11, 1⟩ := by
  decide

/-- Claim C3 (amended): eviction is by insertion/overwrite recency only —
`set` refreshes a key's recency by deleting and re-appending it, but `get`
does not.  Whenever inserting a new key into a full cache forces an
eviction, the evicted entry is exactly the head of the `Map`'s insertion
order, i.e. the entry whose most recent `set` is oldest, regardless of any
intervening `get`s. -/
theorem c3_eviction_oldest_inserted (c : TileCache) (now : Nat) (z x y : Int)
    (b : Nat) (hnew : lookupKey (getCacheKey z x y) c.entries = none)
    (hfull : c.maxSize ≤ c.entries.length) (hne : c.entries ≠ []) :
    (c.set now z x y b).entries =
      c.entries.tail ++ [(getCacheKey z x y, ⟨b, now⟩)] := by
  obtain ⟨maxSize, ttl, entries⟩ := c
  cases entries with
  | nil => exact absurd rfl hne
  | cons hd rest =>
    have htail : lookupKey (getCacheKey z x y) rest = none :=
      lookupKey_none_tail hnew
    have hf : maxSize ≤ rest.length + 1 := by simpa using hfull
    simp [TileCache.set, hnew, htail, hf]

/-- Witness for C3's amended theorem: a full one-entry cache receiving a
fresh key evicts its single (oldest) entry. -/
theorem c3_witness :
    (lookupKey (getCacheKey 1 1 1)
        (TileCache.mk 1 0 [(getCacheKey 0 0 0, ⟨5, 0⟩)]).entries = none ∧
      (TileCache.mk 1 0 [(getCacheKey 0 0 0, ⟨5, 0⟩)]).maxSize ≤
        (TileCache.mk 1 0 [(getCacheKey 0 0 0, ⟨5, 0⟩)]).entries.length ∧
      (TileCache.mk 1 0 [(getCacheKey 0 0 0, ⟨5, 0⟩)]).entries ≠ []) ∧
    ((TileCache.mk 1 0 [(getCacheKey 0 0 0, ⟨5, 0⟩)]).set 7 1 1 1 9).entries =
      (TileCache.mk 1 0 [(getCacheKey 0 0 0, ⟨5, 0⟩)]).entries.tail ++
        [(getCacheKey 1 1 1, ⟨9, 7⟩)] :=
  ⟨⟨by decide, by decide, by decide⟩,
    c3_eviction_oldest_inserted (TileCache.mk 1 0 [(getCacheKey 0 0 0, ⟨5, 0⟩)])
      7 1 1 1 9 (by decide) (by decide) (by decide)⟩

/-- Claim C5: on `get`, an entry whose age `now - timestamp` strictly exceeds
the TTL is deleted and reported absent; an entry whose age is at most the
TTL (the boundary `age = ttl` included) is returned unchanged, with the
cache not modified.  Expiry lives only inside `get` — no other operation
inspects timestamps. -/
theorem c5_get_ttl (c : TileCache) (now : Nat) (z x y : Int) (e : CacheEntry)
    (h : lookupKey (getCacheKey z x y) c.entries = some e) :
    (c.ttl < now - e.timestamp →
      c.get now z x y =
        (none, { c with entries := eraseKey (getCacheKey z x y) c.entries }) ∧
      lookupKey (getCacheKey z x y) (c.get now z x y).2.entries = none) ∧
    (now - e.timestamp ≤ c.ttl →
      c.get now z x y = (some e.buffer, c)) := by
  constructor
  · intro hexp
    have hget : c.get now z x y =
        (none, { c with entries := eraseKey (getCacheKey z x y) c.entries }) := by
      simp [TileCache.get, h, hexp]
    exact ⟨hget, by simp [hget, lookupKey_eraseKey_self]⟩
  · intro hfresh
    simp [TileCache.get, h, Nat.not_lt.mpr hfresh]

/-- Witness for C5: a one-entry cache with `ttl = 10`; a read at age 11
expires the entry, a read at age 10 (the boundary) returns it. -/
theorem c5_witness :
    (lookupKey (getCacheKey 0 0 0)
        (TileCache.mk 5 10 [(getCacheKey 0 0 0, ⟨5, 0⟩)]).entries = some ⟨5, 0⟩) ∧
    ((TileCache.mk 5 10 [(getCacheKey 0 0 0, ⟨5, 0⟩)]).get 11 0 0 0 =
        (none, TileCache.mk 5 10 []) ∧
      (TileCache.mk 5 10 [(getCacheKey 0 0 0, ⟨5, 0⟩)]).get 10 0 0 0 =
        (some 5, TileCache.mk 5 10 [(getCacheKey 0 0 0, ⟨5, 0⟩)])) := by
  refine ⟨by decide, ?_, ?_⟩
  · have := (c5_get_ttl (TileCache.mk 5 10 [(getCacheKey 0 0 0, ⟨5, 0⟩)])
      11 0 0 0 ⟨5, 0⟩ (by decide)).1 (by decide)
    simpa using this.1
  · exact (c5_get_ttl (TileCache.mk 5 10 [(getCacheKey 0 0 0, ⟨5, 0⟩)])
      10 0 0 0 ⟨5, 0⟩ (by decide)).2 (by decide)

theorem set_length_le (c : TileCache) (now : Nat) (z x y : Int) (b : Nat)
    (h1 : 1 ≤ c.maxSize) (hle : c.entries.length ≤ c.maxSize) :
    (c.set now z x y b).entries.length ≤ c.maxSize := by
  obtain ⟨maxSize, ttl, entries⟩ := c
  simp only [TileCache.set] at *
  by_cases hcond : maxSize ≤ entries.length ∧
      lookupKey (getCacheKey z x y) entries = none
  · cases entries with
    | nil => simp at hcond; omega
    | cons hd rest =>
      have htail : lookupKey (getCacheKey z x y) rest = none :=
        lookupKey_none_tail hcond.2
      simp only [if_pos hcond, htail]
      simp at hle ⊢
      omega
  · simp only [if_neg hcond]
    rcases hs : lookupKey (getCacheKey z x y) entries with _ | e
    · have hlt : entries.length < maxSize := by
        rcases Decidable.not_and_iff_or_not.mp hcond with h | h
        · omega
        · exact absurd hs h
      simp [hs]
      omega
    · have := @length_eraseKey_of_mem (getCacheKey z x y) entries (by simp [hs])
      simp [hs]
      omega

theorem get_length_le (c : TileCache) (now : Nat) (z x y : Int) :
    (c.get now z x y).2.entries.length ≤ c.entries.length := by
  obtain ⟨maxSize, ttl, entries⟩ := c
  simp only [TileCache.get]
  rcases hs : lookupKey (getCacheKey z x y) entries with _ | e
  · simp
  · by_cases hexp : ttl < now - e.timestamp
    · simpa [hexp] using length_eraseKey_le (getCacheKey z x y) entries
    · simp [hexp]

theorem apply_inv (c : TileCache) (op : CacheOp) (h1 : 1 ≤ c.maxSize)
    (hle : c.entries.length ≤ c.maxSize) :
    (c.apply op).maxSize = c.maxSize ∧
      (c.apply op).entries.length ≤ c.maxSize := by
  cases op with
  | set now z x y b =>
    exact ⟨rfl, set_length_le c now z x y b h1 hle⟩
  | get now z x y =>
    refine ⟨?_, le_trans (get_length_le c now z x y) hle⟩
    obtain ⟨maxSize, ttl, entries⟩ := c
    simp only [TileCache.apply, TileCache.get]
    rcases hs : lookupKey (getCacheKey z x y) entries with _ | e
    · simp
    · by_cases hexp : ttl < now - e.timestamp <;> simp [hexp]
  | clear => exact ⟨rfl, by simp [TileCache.apply, TileCache.clear]⟩

theorem foldl_inv (ops : List CacheOp) :
    ∀ c : TileCache, 1 ≤ c.maxSize → c.entries.length ≤ c.maxSize →
      (ops.foldl TileCache.apply c).maxSize = c.maxSize ∧
        (ops.foldl TileCache.apply c).entries.length ≤ c.maxSize := by
  induction ops with
  | nil => exact fun c _ hle => ⟨rfl, hle⟩
  | cons op rest ih =>
    intro c h1 hle
    obtain ⟨hm, hl⟩ := apply_inv c op h1 hle
    obtain ⟨hm', hl'⟩ := ih (c.apply op) (hm ▸ h1) (hm ▸ hl)
    exact ⟨hm ▸ hm', hm ▸ hl'⟩

/-- Claim C6 (counterexample): the claim's bound fails for capacity 0 — a
`set` on an empty capacity-0 cache leaves one entry, because the eviction
branch finds no `firstKey` to delete and the insertion is unconditional. -/
theorem c6_counterexample :
    (TileCache.run 0 0 [CacheOp.set 0 0 0 0 5]).entries.length = 1 ∧
    ¬ ((TileCache.run 0 0 [CacheOp.set 0 0 0 0 5]).entries.length ≤ 0) := by
  decide

/-- Claim C6 (amended): for every capacity `maxSize ≥ 1` and every operation
sequence from the empty cache, `size() ≤ maxSize` holds after every
completed operation; and a `set` on a key that is already present removes
and re-inserts that key without evicting any other entry (every other
key's binding is untouched). -/
theorem c6_size_invariant (maxSize ttl : Nat) (h1 : 1 ≤ maxSize) :
    (∀ ops, (TileCache.run maxSize ttl ops).entries.length ≤ maxSize) ∧
    (∀ (c : TileCache) (now : Nat) (z x y : Int) (b : Nat) (k : List Char),
      (lookupKey (getCacheKey z x y) c.entries).isSome = true →
      k ≠ getCacheKey z x y →
      lookupKey k ((c.set now z x y b).entries) = lookupKey k c.entries) := by
  constructor
  · intro ops
    exact (foldl_inv ops ⟨maxSize, ttl, []⟩ h1 (by simp)).2
  · intro c now z x y b k hsome hk
    obtain ⟨ms, t, entries⟩ := c
    have hnotnone : ¬ lookupKey (getCacheKey z x y) entries = none := by
      intro h; rw [h] at hsome; simp at hsome
    simp only [TileCache.set]
    have hcond : ¬ (ms ≤ entries.length ∧
        lookupKey (getCacheKey z x y) entries = none) := fun h => hnotnone h.2
    simp only [if_neg hcond, hsome, if_pos]
    rw [lookupKey_append_single_ne hk, lookupKey_eraseKey_ne hk]

/-- Witness for C6 at `maxSize = 1`: one insertion stays within the bound,
and overwriting the present key preserves the (absent) binding of any
other key. -/
theorem c6_witness :
    (1 ≤ 1) ∧
    (TileCache.run 1 0 [CacheOp.set 0 0 0 0 5]).entries.length ≤ 1 ∧
    lookupKey (getCacheKey 1 1 1)
        ((TileCache.mk 1 0 [(getCacheKey 0 0 0, ⟨5, 0⟩)]).set 3 0 0 0 6).entries =
      lookupKey (getCacheKey 1 1 1)
        (TileCache.mk 1 0 [(getCacheKey 0 0 0, ⟨5, 0⟩)]).entries :=
  ⟨by decide,
    (c6_size_invariant 1 0 (by decide)).1 [CacheOp.set 0 0 0 0 5],
    (c6_size_invariant 1 0 (by decide)).2
      (TileCache.mk 1 0 [(getCacheKey 0 0 0, ⟨5, 0⟩)]) 3 0 0 0 6
      (getCacheKey 1 1 1) (by decide) (by decide)⟩

theorem neg_tmod (a b : Int) : (-a).tmod b = -(a.tmod b) := by
  rw [Int.tmod_def, Int.tmod_def, Int.neg_tdiv]
  ring

theorem neg_lt_tmod (a : Int) {n : Int} (hn : 0 < n) : -n < a.tmod n := by
  rcases le_or_lt 0 a with ha | ha
  · have h0 := Int.tmod_nonneg n ha
    omega
  · have h1 : (-a).tmod n = -(a.tmod n) := neg_tmod a n
    have h2 : (-a).tmod n < n := Int.tmod_lt_of_pos (-a) hn
    omega

theorem tmod_emod (a n : Int) : a.tmod n % n = a % n := by
  rw [Int.tmod_def, sub_eq_add_neg, ← mul_neg, Int.add_mul_emod_self_left]

/-- The JS double-remainder idiom `((a % n) + n) % n` equals the
mathematical (euclidean) remainder for positive `n`. -/
theorem jsWrap_eq_emod (a n : Int) (hn : 0 < n) : jsWrap a n = a % n := by
  have h1 : -n < a.tmod n := neg_lt_tmod a hn
  have h3 : (0:Int) ≤ a.tmod n + n := by omega
  rw [jsWrap, Int.tmod_eq_emod h3 hn.le, Int.add_emod_self, tmod_emod]

theorem jsWrap_bounds (a n : Int) (hn : 0 < n) :
    0 ≤ jsWrap a n ∧ jsWrap a n ≤ n - 1 := by
  rw [jsWrap_eq_emod a n hn]
  have h1 := Int.emod_lt_of_pos a hn
  have h2 := Int.emod_nonneg a (ne_of_gt hn)
  omega

theorem xPx_eq_fract (lat lon : Real) (z : Nat) (tileSize : Real) :
    (latLonToTileXY lat lon z tileSize).xPx =
      Int.fract (latLonToTileXY lat lon z tileSize).xtileFloat * tileSize := rfl

theorem yPx_eq_fract (lat lon : Real) (z : Nat) (tileSize : Real) :
    (latLonToTileXY lat lon z tileSize).yPx =
      Int.fract (latLonToTileXY lat lon z tileSize).ytileFloat * tileSize := rfl

/-- Claim C7: for valid inputs, each candidate tile index is in range after
the compositor's wrap/clamp: the wrapped horizontal index equals the raw
index modulo `2^zoom` and lies in `[0, 2^zoom - 1]`, the clamped vertical
index lies in `[0, 2^zoom - 1]`, and the projection's pixel offsets lie in
`[0, tileSize)`. -/
theorem c7_wrap_clamp_in_range (lat lon : Real) (z : Nat) (tileSize : Real)
    (col row : Nat) (hlat₁ : -90 < lat) (hlat₂ : lat < 90)
    (hlon₁ : -180 ≤ lon) (hlon₂ : lon ≤ 180) (hts : 0 < tileSize) :
    wrappedX lat lon z tileSize col =
        candidateTileX lat lon z tileSize col % 2 ^ z ∧
    (0 ≤ wrappedX lat lon z tileSize col ∧
      wrappedX lat lon z tileSize col ≤ 2 ^ z - 1) ∧
    (0 ≤ clampedY lat lon z tileSize row ∧
      clampedY lat lon z tileSize row ≤ 2 ^ z - 1) ∧
    (0 ≤ (latLonToTileXY lat lon z tileSize).xPx ∧
      (latLonToTileXY lat lon z tileSize).xPx < tileSize) ∧
    (0 ≤ (latLonToTileXY lat lon z tileSize).yPx ∧
      (latLonToTileXY lat lon z tileSize).yPx < tileSize) := by
  have hn : (0:Int) < 2 ^ z := by positivity
  refine ⟨jsWrap_eq_emod _ _ hn, jsWrap_bounds _ _ hn, ⟨?_, ?_⟩, ?_, ?_⟩
  · have h1 : (0:Int) ≤ 2 ^ z - 1 := by omega
    exact le_min (le_max_right _ 0) h1
  · exact min_le_right _ _
  · rw [xPx_eq_fract]
    constructor
    · exact mul_nonneg (Int.fract_nonneg _) hts.le
    · have := mul_lt_mul_of_pos_right
        (Int.fract_lt_one (latLonToTileXY lat lon z tileSize).xtileFloat) hts
      simpa using this
  · rw [yPx_eq_fract]
    constructor
    · exact mul_nonneg (Int.fract_nonneg _) hts.le
    · have := mul_lt_mul_of_pos_right
        (Int.fract_lt_one (latLonToTileXY lat lon z tileSize).ytileFloat) hts
      simpa using this

/-- Witness for C7 at `lat = 0, lon = 0, zoom = 0, tileSize = 256`,
column 0. -/
theorem c7_witness :
    ((-90:Real) < 0 ∧ (0:Real) < 90 ∧ (-180:Real) ≤ 0 ∧ (0:Real) ≤ 180 ∧
      (0:Real) < 256) ∧
    wrappedX 0 0 0 256 0 = candidateTileX 0 0 0 256 0 % 2 ^ 0 :=
  ⟨⟨by norm_num, by norm_num, by norm_num, by norm_num, by norm_num⟩,
    (c7_wrap_clamp_in_range 0 0 0 256 0 0 (by norm_num) (by norm_num)
      (by norm_num) (by norm_num) (by norm_num)).1⟩

/-- Claim C9: `latLonToTileXY(0, 0, 0, 256)` yields the origin tile with the
point at its exact center: `xtile = ytile = 0`, `xPx = yPx = 128`. -/
theorem c9_origin_maps_to_center :
    (latLonToTileXY 0 0 0 256).xtile = 0 ∧
    (latLonToTileXY 0 0 0 256).ytile = 0 ∧
    (latLonToTileXY 0 0 0 256).xPx = 128 ∧
    (latLonToTileXY 0 0 0 256).yPx = 128 := by
  have hx : (latLonToTileXY 0 0 0 256).xtileFloat = 1 / 2 := by
    simp only [latLonToTileXY]
    norm_num
  have hy : (latLonToTileXY 0 0 0 256).ytileFloat = 1 / 2 := by
    simp only [latLonToTileXY]
    norm_num [Real.tan_zero, Real.cos_zero, Real.log_one]
  have hxt : (latLonToTileXY 0 0 0 256).xtile =
      ⌊(latLonToTileXY 0 0 0 256).xtileFloat⌋ := rfl
  have hyt : (latLonToTileXY 0 0 0 256).ytile =
      ⌊(latLonToTileXY 0 0 0 256).ytileFloat⌋ := rfl
  have hxt0 : (latLonToTileXY 0 0 0 256).xtile = 0 := by
    rw [hxt, hx]; norm_num [Int.floor_eq_zero_iff]
  have hyt0 : (latLonToTileXY 0 0 0 256).ytile = 0 := by
    rw [hyt, hy]; norm_num [Int.floor_eq_zero_iff]
  have hxp : (latLonToTileXY 0 0 0 256).xPx =
      ((latLonToTileXY 0 0 0 256).xtileFloat -
        ((latLonToTileXY 0 0 0 256).xtile : Real)) * 256 := rfl
  have hyp' : (latLonToTileXY 0 0 0 256).yPx =
      ((latLonToTileXY 0 0 0 256).ytileFloat -
        ((latLonToTileXY 0 0 0 256).ytile : Real)) * 256 := rfl
  refine ⟨hxt0, hyt0, ?_, ?_⟩
  · rw [hxp, hx, hxt0]; norm_num
  · rw [hyp', hy, hyt0]; norm_num

/-- Claim C8: when every tile fetch resolved, the composition always
produces an encoded image regardless of marker resolution or marker-image
loading: the marker layer is the anchor-positioned image marker exactly
when the marker name and anchor name both resolve in the catalogs and the
image loads, and in every other case it is the built-in vector fallback
(filled circle, border stroke, centered cross) at the canvas center. -/
theorem c8_marker_fallback_total (tilesOk : Bool)
    (markerName anchorName : Option (List Char))
    (markers : List MarkerDef) (anchors : List AnchorDef)
    (loadResult : MarkerDef → Option (Rat × Rat)) (tileSize radius : Rat)
    (htiles : tilesOk = true) :
    (composeResult tilesOk markerName anchorName markers anchors loadResult
        tileSize radius =
      some (markerStage markerName anchorName markers anchors loadResult
        tileSize radius)) ∧
    ((∃ m a w h, selectedMarker markerName markers = some m ∧
        selectedAnchor anchorName anchors = some a ∧
        loadResult m = some (w, h) ∧
        markerStage markerName anchorName markers anchors loadResult
            tileSize radius =
          [imageMarkerOp m a w h (tileSize / 2) (tileSize / 2)]) ∨
      ((selectedMarker markerName markers = none ∨
        selectedAnchor anchorName anchors = none ∨
        (∃ m, selectedMarker markerName markers = some m ∧ loadResult m = none)) ∧
        markerStage markerName anchorName markers anchors loadResult
            tileSize radius =
          vectorMarkerOps (tileSize / 2) (tileSize / 2) radius)) := by
  subst htiles
  refine ⟨by simp [composeResult], ?_⟩
  rcases hm : selectedMarker markerName markers with _ | m
  · exact Or.inr ⟨Or.inl rfl, by simp [markerStage, hm]⟩
  · rcases ha : selectedAnchor anchorName anchors with _ | a
    · exact Or.inr ⟨Or.inr (Or.inl rfl), by simp [markerStage, hm, ha]⟩
    · rcases hl : loadResult m with _ | wh
      · exact Or.inr ⟨Or.inr (Or.inr ⟨m, rfl, hl⟩),
          by simp [markerStage, hm, ha, hl]⟩
      · obtain ⟨w, h⟩ := wh
        exact Or.inl ⟨m, a, w, h, rfl, rfl, hl, by simp [markerStage, hm, ha, hl]⟩

/-- Witness for C8 with no marker configured: the composition still
returns an image. -/
theorem c8_witness :
    (true = true) ∧
    composeResult true none none [] [] (fun _ => none) 256 8 =
      some (markerStage none none [] [] (fun _ => none) 256 8) :=
  ⟨rfl, (c8_marker_fallback_total true none none [] [] (fun _ => none) 256 8
    rfl).1⟩

/-- Claim C10 (code bug): with `maxConcurrent = 2` and `minDelay = 500` ms,
the legal schedule `limTrace` — three tasks submitted while one dispatch
slot is recent — ends with **3** requests simultaneously in flight and
with two dispatches bearing the *same* timestamp (spacing 0 ms < 500 ms).
The concurrency check (`waitForSlot` line 190) runs before the spacing
sleep, and `activeRequests` is incremented only after it, so both sleepers
pass the check while only one request is active; on waking, neither check
is re-run. -/
theorem c10_limiter_cap_and_spacing_violated :
    (lrun limInit limTrace).map LimiterState.active = some 3 ∧
    (lrun limInit limTrace).map LimiterState.dispatches =
      some [1000000, 1000500, 1000500] ∧
    limInit.maxConcurrent = 2 ∧ limInit.minDelay = 500 ∧
    2 < 3 ∧ (1000500 - 1000500 : Nat) < 500 := by
  decide

end StaticMap
